import Mathlib

/-!
Verification of the mommyschoice/store catalog application.

The development shallowly embeds the two parts of the repository that the
spec's claims concern:

* the client-side catalog query engine `filteredAndSortedDresses`
  (category filter → fuzzy search → comparator sort) from the React app;
* the Express/SQLite request handlers for `GET /api/dresses`,
  `POST /api/admin/dresses`, `PUT /api/admin/dresses/:id` and
  `DELETE /api/admin/dresses/:id` from `server.ts`, together with the
  uploads directory managed by multer/fs.

JavaScript numbers are modelled as `ℚ` (price comparisons of finite values
are exact), `Math.min()` of an empty argument list — which yields
`Infinity` in JavaScript — is modelled as `⊤ : WithTop ℚ`, and
`Array.prototype.sort`, which ECMAScript requires to be a stable sort
consistent with the comparator (a comparator returning `NaN` is treated as
`+0`), is modelled by a stable insertion sort with respect to the total
preorder the comparator induces.
-/

/-- One size/price variant, the `SizeInfo` interface of the client and one
element of the `sizes_json` array of the `dresses` table. -/
structure SizeInfo where
  range : String
  price : ℚ
  bodyLong : String
  pantLong : String
deriving DecidableEq

/-- The client-side `Dress` interface: the JSON shape served by
`GET /api/dresses`.  `created_at` is optional in the interface; it is
modelled as the already-parsed millisecond timestamp. -/
structure Dress where
  id : ℤ
  code : String
  name : String
  category : String
  note : String
  sizes : List SizeInfo
  image_url : String
  created_at : Option ℤ
deriving DecidableEq

/-- `Math.min(...d.sizes.map(s => s.price))`: the minimum variant price of a
record, `⊤` (JavaScript `Infinity`) when the variant list is empty. -/
def sortKey (d : Dress) : WithTop ℚ :=
  (d.sizes.map fun s => ((s.price : ℚ) : WithTop ℚ)).foldr min ⊤

/-- The order the `price_asc` comparator `aMinPrice - bMinPrice` induces:
the comparator is `≤ 0` exactly when `sortKey a ≤ sortKey b` (with
`Infinity - Infinity = NaN` coerced to `+0` by the ECMAScript sort). -/
def priceLE (a b : Dress) : Prop := sortKey a ≤ sortKey b

/-- The order the `price_desc` comparator `bMinPrice - aMinPrice` induces. -/
def priceGE (a b : Dress) : Prop := sortKey b ≤ sortKey a

/-- The order the `newest` comparator
`new Date(b.created_at || 0) - new Date(a.created_at || 0)` induces. -/
def newestGE (a b : Dress) : Prop := b.created_at.getD 0 ≤ a.created_at.getD 0

instance : DecidableRel priceLE := fun a b =>
  inferInstanceAs (Decidable (sortKey a ≤ sortKey b))

instance : DecidableRel priceGE := fun a b =>
  inferInstanceAs (Decidable (sortKey b ≤ sortKey a))

instance : DecidableRel newestGE := fun _ _ =>
  inferInstanceAs (Decidable (_ ≤ _))

instance : IsTotal Dress priceLE := ⟨fun _ _ => le_total _ _⟩
instance : IsTrans Dress priceLE := ⟨fun _ _ _ => le_trans⟩
instance : IsTotal Dress priceGE := ⟨fun _ _ => le_total _ _⟩
instance : IsTrans Dress priceGE := ⟨fun _ _ _ h h' => le_trans h' h⟩

/-- The strict price order; two records related both ways would need
`sortKey a < sortKey b < sortKey a`, so the order is (vacuously)
antisymmetric. -/
def priceLT (a b : Dress) : Prop := sortKey a < sortKey b

instance : IsAntisymm Dress priceLT :=
  ⟨fun _ _ h h' => absurd h' (lt_asymm h)⟩

/-- The three sort options offered by the UI (`sortBy` state). -/
inductive SortBy where
  | newest
  | price_asc
  | price_desc
deriving DecidableEq

/-- JavaScript `String.prototype.trim`. -/
def jsTrim (s : String) : String :=
  ⟨((s.data.dropWhile Char.isWhitespace).reverse.dropWhile Char.isWhitespace).reverse⟩

/-- Stage 1 of `filteredAndSortedDresses`:
`if (selectedCategory !== 'All') result = result.filter(d => d.category === selectedCategory)`. -/
def categoryFilter (cat : String) (L : List Dress) : List Dress :=
  if cat = "All" then L else L.filter fun d => decide (d.category = cat)

/-- Stage 2 of `filteredAndSortedDresses`:
`if (searchQuery.trim()) { result = fuse.search(searchQuery).map(r => r.item) }`.
The Fuse.js engine is an external library; it is passed in as the
function `fz` applied to the query and the stage input. -/
def searchStage (fz : String → List Dress → List Dress) (q : String)
    (L : List Dress) : List Dress :=
  if jsTrim q = "" then L else fz q L

/-- Stage 3 of `filteredAndSortedDresses`: `result.sort(comparator)`, a
stable sort under the comparator selected by `sortBy`. -/
def sortStage : SortBy → List Dress → List Dress
  | .price_asc, L => L.insertionSort priceLE
  | .price_desc, L => L.insertionSort priceGE
  | .newest, L => L.insertionSort newestGE

/-- The catalog query engine `filteredAndSortedDresses` of the public feed:
category filter, then fuzzy search, then sort. -/
def filteredAndSortedDresses (fz : String → List Dress → List Dress)
    (cat q : String) (sb : SortBy) (dresses : List Dress) : List Dress :=
  sortStage sb (searchStage fz q (categoryFilter cat dresses))

/-! ### The server: the `dresses` table, the uploads directory and the four
request handlers of `server.ts`. -/

/-- One row of the SQLite `dresses` table.  `sizes_json` is stored as the
JSON serialisation of a `SizeInfo` array and parsed back on read
(`JSON.parse(d.sizes_json)`); the model carries the parsed value.
`created_at` defaults to `CURRENT_TIMESTAMP` at insertion. -/
structure DressRow where
  id : ℕ
  code : String
  name : String
  category : String
  note : String
  sizes : List SizeInfo
  image_url : String
  created_at : ℤ
deriving DecidableEq

/-- The record store: the rows of the `dresses` table together with the
`AUTOINCREMENT` counter for the next generated `id`. -/
structure Db where
  dresses : List DressRow
  nextId : ℕ
deriving DecidableEq

/-- SQLite's `LIKE` case folding: ASCII letters compare case-insensitively,
all other characters compare exactly. -/
def sqliteLower (c : Char) : Char :=
  if 'A' ≤ c ∧ c ≤ 'Z' then Char.ofNat (c.toNat + 32) else c

/-- SQLite `LIKE` pattern matching (no `ESCAPE` clause): `%` matches any
sequence of characters, `_` matches any single character, and other
characters match ASCII-case-insensitively.  Recursion is structural on the
pattern: a `%` tries every suffix of the text. -/
def likeB : List Char → List Char → Bool
  | [], t => t.isEmpty
  | c :: p, t =>
    if c = '%' then t.tails.any fun t' => likeB p t'
    else
      match t with
      | [] => false
      | d :: t' => (if c = '_' then true else sqliteLower c == sqliteLower d) && likeB p t'

/-- The pattern `` `%${search}%` `` the handler binds to each `LIKE`. -/
def likePat (q : String) : List Char := '%' :: (q.data ++ ['%'])

/-- The `WHERE` clause `(name LIKE ? OR code LIKE ? OR category LIKE ?)`
of the `GET /api/dresses` handler.  The `note` column is not searched. -/
def searchPred (q : String) (row : DressRow) : Bool :=
  likeB (likePat q) row.name.data || likeB (likePat q) row.code.data ||
    likeB (likePat q) row.category.data

/-- ASCII-case-insensitive substring containment, the intended reading of a
`LIKE '%q%'` match for a wildcard-free `q`. -/
def containsCI (needle hay : String) : Prop :=
  needle.data.map sqliteLower <:+: hay.data.map sqliteLower

instance : ∀ n h, Decidable (containsCI n h) := fun _ _ =>
  inferInstanceAs (Decidable (_ <:+: _))

/-- The `ORDER BY created_at DESC` order of `GET /api/dresses`. -/
def createdDesc (a b : DressRow) : Prop := b.created_at ≤ a.created_at

instance : DecidableRel createdDesc := fun _ _ =>
  inferInstanceAs (Decidable (_ ≤ _))

/-- The `GET /api/dresses` handler: optional exact category condition
(skipped for a missing, empty — falsy — or `"All"` value), optional search
condition (skipped for a missing or empty value), then
`ORDER BY created_at DESC`. -/
def getDresses (db : Db) (category : Option String) (search : Option String) :
    List DressRow :=
  let afterCat :=
    match category with
    | some c =>
        if c = "" ∨ c = "All" then db.dresses
        else db.dresses.filter fun row => decide (row.category = c)
    | none => db.dresses
  let afterSearch :=
    match search with
    | some q => if q = "" then afterCat else afterCat.filter (searchPred q)
    | none => afterCat
  afterSearch.insertionSort createdDesc

/-- The `multipart/form-data` body of a create request: the five text
fields and the optional uploaded image (its multer-generated filename). -/
structure CreateReq where
  code : String
  name : String
  category : String
  note : String
  sizes : List SizeInfo
  file : Option String
deriving DecidableEq

/-- The distinguishable failure of an admin write: the SQLite
`UNIQUE constraint failed: dresses.code` error, surfaced as a 400. -/
inductive DbErr where
  | duplicateCode
deriving DecidableEq

/-- `` `/uploads/${req.file?.filename}` ``: when no file was uploaded the
template literal interpolates `undefined`. -/
def imageUrlOf : Option String → String
  | some f => "/uploads/" ++ f
  | none => "/uploads/undefined"

/-- The multer middleware `upload.single("image")`: it writes the uploaded
file into the uploads directory before the route handler runs, regardless
of what the handler later does. -/
def multerStore (assets : List String) : Option String → List String
  | some f => assets ++ ["/uploads/" ++ f]
  | none => assets

/-- Does some row already carry this `code`?  (The `UNIQUE` column.) -/
def codeExists (db : Db) (c : String) : Bool :=
  db.dresses.any fun row => decide (row.code = c)

/-- The `POST /api/admin/dresses` handler: multer stores the image, then the
row is inserted; the insert throws (caught as a 400) exactly when `code`
violates the `UNIQUE` constraint.  No other validation is performed. -/
def createDress (db : Db) (assets : List String) (now : ℤ) (r : CreateReq) :
    Db × List String × Except DbErr DressRow :=
  let assets' := multerStore assets r.file
  if codeExists db r.code then (db, assets', .error .duplicateCode)
  else
    let row : DressRow :=
      { id := db.nextId, code := r.code, name := r.name, category := r.category,
        note := r.note, sizes := r.sizes, image_url := imageUrlOf r.file,
        created_at := now }
    ({ dresses := db.dresses ++ [row], nextId := db.nextId + 1 }, assets', .ok row)

/-- The `PUT /api/admin/dresses/:id` handler: multer stores any uploaded
image, then `UPDATE dresses SET ... WHERE id = ?` runs.  When no row has the
given id the update affects zero rows and the handler still answers
`{ success: true }`; when a row exists the new `code` may still collide with
a different row's `code` (`UNIQUE`), which surfaces as a 400. -/
def updateDress (db : Db) (assets : List String) (id : ℕ) (r : CreateReq) :
    Db × List String × Except DbErr Unit :=
  let assets' := multerStore assets r.file
  match db.dresses.find? fun row => decide (row.id = id) with
  | none => (db, assets', .ok ())
  | some _ =>
      if db.dresses.any fun row => decide (row.code = r.code ∧ row.id ≠ id) then
        (db, assets', .error .duplicateCode)
      else
        let rows' := db.dresses.map fun row =>
          if row.id = id then
            { row with
              code := r.code
              name := r.name
              category := r.category
              note := r.note
              sizes := r.sizes
              image_url :=
                (match r.file with
                  | some f => "/uploads/" ++ f
                  | none => row.image_url) }
          else row
        ({ db with dresses := rows' }, assets', .ok ())

/-- Outcome of the `DELETE /api/admin/dresses/:id` handler. -/
inductive DeleteResp where
  | ok
  | notFound
  | ioError
deriving DecidableEq

/-- The `DELETE /api/admin/dresses/:id` handler: it selects the row (404
when absent), and otherwise unlinks the image file first — when
`fs.existsSync` holds and, should `fs.unlinkSync` throw (`ioFail`), the
whole handler aborts with a 500 before touching the table — and only then
deletes the row. -/
def deleteDress (db : Db) (assets : List String) (ioFail : String → Bool)
    (id : ℕ) : Db × List String × DeleteResp :=
  match db.dresses.find? fun row => decide (row.id = id) with
  | none => (db, assets, .notFound)
  | some row =>
      if assets.contains row.image_url then
        if ioFail row.image_url then (db, assets, .ioError)
        else
          ({ db with dresses := db.dresses.filter fun r2 => decide (r2.id ≠ id) },
            assets.erase row.image_url, .ok)
      else
        ({ db with dresses := db.dresses.filter fun r2 => decide (r2.id ≠ id) },
          assets, .ok)

/-! ### Concrete fixtures used by witnesses and counterexamples -/

def sizeM : SizeInfo := ⟨"M", 5, "", ""⟩

def sizeL : SizeInfo := ⟨"L", 9, "", ""⟩

/-- A catalog record with an empty variant list. -/
def dEmpty : Dress := ⟨0, "D0", "Empty", "Cat", "", [], "/uploads/e.jpg", none⟩

def dFive : Dress := ⟨1, "D1", "Five", "Cat", "", [sizeM], "/uploads/f.jpg", none⟩

def dNine : Dress := ⟨2, "D2", "Nine", "Cat", "", [sizeL], "/uploads/n.jpg", none⟩

def dSummer : Dress := ⟨3, "A1", "Sun", "Summer", "", [sizeM], "/uploads/s.jpg", none⟩

def dWinter : Dress := ⟨4, "B2", "Snow", "Winter", "", [sizeL], "/uploads/w.jpg", none⟩

def rowA : DressRow := ⟨1, "A1", "Sun", "Summer", "", [sizeM], "/uploads/a.jpg", 10⟩

def dbOne : Db := ⟨[rowA], 2⟩

/-- A create request with an empty variant list and no image. -/
def reqEmpty : CreateReq := ⟨"C0", "NoVariants", "Cat", "", [], none⟩

/-- A create request whose code collides with `rowA`. -/
def reqDup : CreateReq := ⟨"A1", "Other", "Cat", "", [sizeM], none⟩

/-- An update request for `rowA` carrying a new image. -/
def reqNewImg : CreateReq := ⟨"A1", "Sun", "Summer", "", [sizeM], some "new.jpg"⟩

/-- A row whose `note` contains the literal text `X%Y` while `name`, `code`
and `category` do not contain it — but `name` does match the wildcard
pattern `%X%Y%`. -/
def rowLike : DressRow := ⟨1, "AA", "XZY", "BB", "X%Y", [], "/uploads/x.jpg", 0⟩

def dbLike : Db := ⟨[rowLike], 2⟩

/-- A row whose `note` alone contains the wildcard-free search text `xy`. -/
def rowNote : DressRow := ⟨2, "CC", "Dressy", "Cat", "has XY inside", [], "/uploads/y.jpg", 0⟩

def dbNote : Db := ⟨[rowNote], 3⟩

/-! ### Helper lemmas: stability of the comparator sort -/

/-- Inserting `a` with `orderedInsert` never passes an element of equal sort
key, so the sublist of any fixed key `k` is extended at the front exactly
when `a` has key `k`.  The hypothesis `hk` says the relation holds between
equal-key elements, which is true of both price comparators. -/
theorem filter_key_orderedInsert (r : Dress → Dress → Prop) [DecidableRel r]
    (hk : ∀ a b, sortKey a = sortKey b → r a b) (k : WithTop ℚ) (a : Dress)
    (l : List Dress) :
    (l.orderedInsert r a).filter (fun d => decide (sortKey d = k)) =
      if sortKey a = k then a :: l.filter (fun d => decide (sortKey d = k))
      else l.filter (fun d => decide (sortKey d = k)) := by
  induction l with
  | nil =>
      by_cases ha : sortKey a = k <;> simp [List.orderedInsert, ha]
  | cons b l ih =>
      rw [List.orderedInsert]
      by_cases hr : r a b
      · rw [if_pos hr]
        by_cases ha : sortKey a = k <;> by_cases hb : sortKey b = k <;>
          simp [List.filter_cons, ha, hb]
      · rw [if_neg hr]
        by_cases hb : sortKey b = k
        · have ha : ¬ sortKey a = k := fun ha => hr (hk a b (ha.trans hb.symm))
          simp [List.filter_cons, hb, ha, ih]
        · by_cases ha : sortKey a = k <;> simp [List.filter_cons, hb, ha, ih]

/-- Stability of the sort: for every key value, the sorted list and the
input list agree on the sublist of records carrying that key. -/
theorem filter_key_insertionSort (r : Dress → Dress → Prop) [DecidableRel r]
    (hk : ∀ a b, sortKey a = sortKey b → r a b) (k : WithTop ℚ)
    (l : List Dress) :
    (l.insertionSort r).filter (fun d => decide (sortKey d = k)) =
      l.filter (fun d => decide (sortKey d = k)) := by
  induction l with
  | nil => rfl
  | cons a l ih =>
      rw [List.insertionSort, filter_key_orderedInsert r hk k, ih, List.filter_cons]
      by_cases ha : sortKey a = k <;> simp [ha]

/-- On a list without repeated sort keys, sortedness upgrades to strict
sortedness. -/
theorem sorted_strict_of_nodupKeys {l : List Dress} (hs : l.Sorted priceLE)
    (hn : (l.map sortKey).Nodup) : l.Sorted priceLT := by
  have hne : l.Pairwise fun a b => sortKey a ≠ sortKey b := List.pairwise_map.mp hn
  exact (hs.and hne).imp fun h => lt_of_le_of_ne h.1 h.2

/-- The reverse of a descending-sorted list without repeated sort keys is
strictly ascending. -/
theorem reverse_sorted_strict_of_nodupKeys {l : List Dress}
    (hs : l.Sorted priceGE) (hn : (l.map sortKey).Nodup) :
    l.reverse.Sorted priceLT := by
  have h1 : l.reverse.Sorted priceLE := by
    rw [List.Sorted, List.pairwise_reverse]
    exact hs
  have h2 : (l.reverse.map sortKey).Nodup := by
    rw [List.map_reverse]
    exact List.nodup_reverse.mpr hn
  exact sorted_strict_of_nodupKeys h1 h2

/-! ### Helper lemmas: SQL `LIKE` versus substring containment -/

/-- A pattern beginning with `%` matches iff the remaining pattern matches
some suffix of the text. -/
theorem likeB_pct {p t : List Char} :
    likeB ('%' :: p) t = true ↔ ∃ t', t' <:+ t ∧ likeB p t' = true := by
  simp [likeB, List.mem_tails]

/-- Matching a wildcard-free literal followed by `%` means the case-folded
literal is a prefix of the case-folded text. -/
theorem likeB_lit_pct {m : List Char} (hm : ∀ c ∈ m, c ≠ '%' ∧ c ≠ '_') :
    ∀ t : List Char, likeB (m ++ ['%']) t = true →
      m.map sqliteLower <+: t.map sqliteLower := by
  induction m with
  | nil => intro t _; simp
  | cons c m' ih =>
      intro t h
      have hc := hm c (List.mem_cons_self ..)
      rw [List.cons_append] at h
      cases t with
      | nil => simp [likeB, hc.1] at h
      | cons d t' =>
          simp only [likeB, hc.1, hc.2, if_false, ite_false, Bool.and_eq_true,
            beq_iff_eq] at h
          have hpre := ih (fun x hx => hm x (List.mem_cons_of_mem c hx)) t' h.2
          simpa [List.map_cons, List.cons_prefix_cons, h.1] using hpre

/-- A wildcard-free `LIKE '%q%'` match implies ASCII-case-insensitive
substring containment. -/
theorem containsCI_of_likeB {q : String} (hq : ∀ c ∈ q.data, c ≠ '%' ∧ c ≠ '_')
    {t : String} (h : likeB (likePat q) t.data = true) : containsCI q t := by
  rw [likePat] at h
  obtain ⟨t', hsuf, hmatch⟩ := likeB_pct.mp h
  obtain ⟨v, hv⟩ := likeB_lit_pct hq t' hmatch
  obtain ⟨u, hu⟩ := hsuf
  refine ⟨u.map sqliteLower, v, ?_⟩
  rw [← hu, List.map_append, List.append_assoc, hv]

/-! ### Claims C1 to C4: the catalog query engine -/

/-- Claim C1, counterexample.  The record `dEmpty` has an empty variant
set, yet under `price_desc` the sort ranks it by the spurious minimum
price `Math.min() = Infinity` and moves it ahead of the priced record,
instead of excluding it from price comparisons (which, with a stable
sort, would have left the order `[dFive, dEmpty]` unchanged). -/
theorem C1_counterexample :
    dEmpty.sizes = [] ∧
    sortStage .price_desc [dFive, dEmpty] = [dEmpty, dFive] := by decide

/-- Claim C1 (amended): the query engine's sort stage raises no error on a
record with an empty variant set — it returns a permutation of its input,
sorted by the comparators — but such a record is not excluded from
price comparisons: its sort key is `⊤` (JavaScript `Infinity`), so it
participates and ranks after every finite price ascending and before every
finite price descending. -/
theorem C1_theorem (sb : SortBy) (L : List Dress) :
    (sortStage sb L).Perm L ∧
    (sb = .price_asc → (sortStage sb L).Sorted priceLE) ∧
    (sb = .price_desc → (sortStage sb L).Sorted priceGE) ∧
    (∀ d : Dress, d.sizes = [] → sortKey d = ⊤) := by
  refine ⟨?_, ?_, ?_, fun d hd => by simp [sortKey, hd]⟩
  · cases sb <;> exact List.perm_insertionSort _ _
  · rintro rfl; exact List.sorted_insertionSort _ _
  · rintro rfl; exact List.sorted_insertionSort _ _

/-- Claim C1, witness for the amended theorem at a concrete input. -/
theorem C1_witness :
    (sortStage .price_desc [dFive, dEmpty]).Perm [dFive, dEmpty] ∧
    (sortStage .price_desc [dFive, dEmpty]).Sorted priceGE ∧
    sortKey dEmpty = ⊤ :=
  ⟨(C1_theorem .price_desc [dFive, dEmpty]).1,
   (C1_theorem .price_desc [dFive, dEmpty]).2.2.1 rfl,
   (C1_theorem .price_desc [dFive, dEmpty]).2.2.2 dEmpty rfl⟩

/-- Claim C2: `price_asc` (resp. `price_desc`) produces a permutation of
its input sorted ascending (resp. descending) by the derived minimum
variant price; the sort is stable — for every price key the sublist of
records carrying that key is exactly the input's sublist — and when no two
records share a minimum price the ascending result is the exact reverse of
the descending result. -/
theorem C2_theorem (L : List Dress) :
    (sortStage .price_asc L).Perm L ∧
    (sortStage .price_asc L).Sorted priceLE ∧
    (sortStage .price_desc L).Perm L ∧
    (sortStage .price_desc L).Sorted priceGE ∧
    (∀ k, (sortStage .price_asc L).filter (fun d => decide (sortKey d = k)) =
        L.filter (fun d => decide (sortKey d = k))) ∧
    (∀ k, (sortStage .price_desc L).filter (fun d => decide (sortKey d = k)) =
        L.filter (fun d => decide (sortKey d = k))) ∧
    ((L.map sortKey).Nodup →
      sortStage .price_asc L = (sortStage .price_desc L).reverse) := by
  refine ⟨List.perm_insertionSort _ _, List.sorted_insertionSort _ _,
    List.perm_insertionSort _ _, List.sorted_insertionSort _ _,
    fun k => filter_key_insertionSort priceLE (fun _ _ h => le_of_eq h) k L,
    fun k => filter_key_insertionSort priceGE (fun _ _ h => le_of_eq h.symm) k L,
    fun hn => ?_⟩
  apply List.eq_of_perm_of_sorted (r := priceLT)
  · exact (List.perm_insertionSort priceLE L).trans
      ((List.perm_insertionSort priceGE L).symm.trans (List.reverse_perm _).symm)
  · exact sorted_strict_of_nodupKeys (List.sorted_insertionSort priceLE L)
      (((List.perm_insertionSort priceLE L).map sortKey).nodup_iff.mpr hn)
  · exact reverse_sorted_strict_of_nodupKeys
      (List.sorted_insertionSort priceGE L)
      (((List.perm_insertionSort priceGE L).map sortKey).nodup_iff.mpr hn)

/-- Claim C2, witness: on two records with distinct minimum prices the
ascending sort is the reverse of the descending sort. -/
theorem C2_witness :
    ([dFive, dNine].map sortKey).Nodup ∧
    sortStage .price_asc [dFive, dNine] =
      (sortStage .price_desc [dFive, dNine]).reverse :=
  ⟨by decide, (C2_theorem [dFive, dNine]).2.2.2.2.2.2 (by decide)⟩

/-- Claim C3: with a non-wildcard category the filter stage keeps exactly
the records whose `category` equals the requested value, in their original
relative order (a sublist of the input); with the wildcard `"All"` it
returns the input unchanged.  The server-side `WHERE category = ?` clause
of `GET /api/dresses` agrees on membership. -/
theorem C3_theorem (cat : String) (L : List Dress) :
    (cat ≠ "All" →
      (categoryFilter cat L).Sublist L ∧
      ∀ d : Dress, d ∈ categoryFilter cat L ↔ d ∈ L ∧ d.category = cat) ∧
    categoryFilter "All" L = L ∧
    (∀ (db : Db) (c : String) (row : DressRow), c ≠ "All" → c ≠ "" →
      (row ∈ getDresses db (some c) none ↔
        row ∈ db.dresses ∧ row.category = c)) := by
  refine ⟨fun h => ?_, by simp [categoryFilter], fun db c row h1 h2 => ?_⟩
  · rw [categoryFilter, if_neg h]
    exact ⟨List.filter_sublist _, fun d => by simp [List.mem_filter]⟩
  · have hcond : ¬(c = "" ∨ c = "All") := by simp [h1, h2]
    have hshow : getDresses db (some c) none =
        (db.dresses.filter fun r2 => decide (r2.category = c)).insertionSort
          createdDesc := by
      rw [getDresses]
      simp [hcond]
    rw [hshow, (List.perm_insertionSort createdDesc _).mem_iff]
    simp [List.mem_filter]

/-- Claim C3, witness at a concrete category and list. -/
theorem C3_witness :
    (categoryFilter "Summer" [dSummer, dWinter]).Sublist [dSummer, dWinter] ∧
    (dSummer ∈ categoryFilter "Summer" [dSummer, dWinter] ↔
      dSummer ∈ [dSummer, dWinter] ∧ dSummer.category = "Summer") ∧
    (rowA ∈ getDresses dbOne (some "Summer") none ↔
      rowA ∈ dbOne.dresses ∧ rowA.category = "Summer") :=
  ⟨(( C3_theorem "Summer" [dSummer, dWinter]).1 (by decide)).1,
   (( C3_theorem "Summer" [dSummer, dWinter]).1 (by decide)).2 dSummer,
   ( C3_theorem "Summer" [dSummer, dWinter]).2.2 dbOne "Summer" rowA
     (by decide) (by decide)⟩

/-- Claim C4: when the search text trims to the empty string the fuzzy
search stage is skipped, so its output is exactly the category-filtered
list and the whole engine reduces to filter-then-sort. -/
theorem C4_theorem (fz : String → List Dress → List Dress) (cat q : String)
    (sb : SortBy) (L : List Dress) (hq : jsTrim q = "") :
    searchStage fz q (categoryFilter cat L) = categoryFilter cat L ∧
    filteredAndSortedDresses fz cat q sb L =
      sortStage sb (categoryFilter cat L) := by
  constructor
  · rw [searchStage, if_pos hq]
  · rw [filteredAndSortedDresses, searchStage, if_pos hq]

/-- Claim C4, witness: even a fuzzy engine that would drop every record is
not consulted for an all-whitespace query. -/
theorem C4_witness :
    searchStage (fun _ _ => []) "   " (categoryFilter "All" [dFive]) =
      categoryFilter "All" [dFive] :=
  (C4_theorem (fun _ _ => []) "All" "   " .newest [dFive] (by decide)).1

/-! ### Claims C5 to C9: the admin record lifecycle -/

/-- Whatever branch the update handler takes, the uploads directory ends up
exactly as multer left it: the handler itself never stores or deletes an
asset. -/
theorem updateDress_assets (db : Db) (assets : List String) (id : ℕ)
    (r : CreateReq) :
    (updateDress db assets id r).2.1 = multerStore assets r.file := by
  rcases hfind : db.dresses.find? fun row => decide (row.id = id) with _ | row <;>
    rw [updateDress, hfind]
  split <;> first
    | rfl
    | split <;> rfl

/-- Claim C5, counterexample.  A create request with an empty variant list
and no uploaded image succeeds — no `ValidationError` exists anywhere in
the handler — and persists a record with zero variants whose image
reference is the unresolvable `/uploads/undefined`. -/
theorem C5_counterexample :
    (createDress ⟨[], 1⟩ [] 0 reqEmpty).2.2 =
      .ok ⟨1, "C0", "NoVariants", "Cat", "", [], "/uploads/undefined", 0⟩ ∧
    ⟨1, "C0", "NoVariants", "Cat", "", [], "/uploads/undefined", 0⟩ ∈
      (createDress ⟨[], 1⟩ [] 0 reqEmpty).1.dresses ∧
    reqEmpty.sizes = [] :=
  ⟨rfl, by decide, rfl⟩

/-- Claim C5 (amended): the create handler validates nothing beyond the
`UNIQUE` code constraint: whenever the supplied code is unused the create
succeeds and persists the record exactly as supplied — in particular a
record with an empty variant set, and, when no image was uploaded, with
the unresolvable image reference `/uploads/undefined`. -/
theorem C5_theorem (db : Db) (assets : List String) (now : ℤ) (r : CreateReq)
    (h : ∀ row ∈ db.dresses, row.code ≠ r.code) :
    ∃ row : DressRow,
      (createDress db assets now r).2.2 = .ok row ∧
      row ∈ (createDress db assets now r).1.dresses ∧
      row.sizes = r.sizes ∧ row.image_url = imageUrlOf r.file := by
  have hc : codeExists db r.code = false := by
    rw [codeExists, List.any_eq_false]
    intro row hrow
    simp [h row hrow]
  refine ⟨{ id := db.nextId
            code := r.code
            name := r.name
            category := r.category
            note := r.note
            sizes := r.sizes
            image_url := imageUrlOf r.file
            created_at := now }, ?_, ?_, rfl, rfl⟩
  · simp [createDress, hc]
  · simp [createDress, hc]

/-- Claim C5, witness: the amended theorem applied to the zero-variant,
imageless request on an empty store. -/
theorem C5_witness :
    ∃ row : DressRow,
      (createDress ⟨[], 1⟩ [] 0 reqEmpty).2.2 = .ok row ∧
      row ∈ (createDress ⟨[], 1⟩ [] 0 reqEmpty).1.dresses ∧
      row.sizes = reqEmpty.sizes ∧ row.image_url = imageUrlOf reqEmpty.file :=
  C5_theorem ⟨[], 1⟩ [] 0 reqEmpty (by decide)

/-- Claim C6: creating a record whose code is already carried by some
persisted record fails with the duplicate-code error (the SQLite `UNIQUE`
violation) and leaves the record store exactly as it was: the failed
create adds nothing. -/
theorem C6_theorem (db : Db) (assets : List String) (now : ℤ) (r : CreateReq)
    (h : ∃ row ∈ db.dresses, row.code = r.code) :
    (createDress db assets now r).2.2 = .error .duplicateCode ∧
    (createDress db assets now r).1 = db := by
  have hc : codeExists db r.code = true := by
    rw [codeExists, List.any_eq_true]
    obtain ⟨row, h1, h2⟩ := h
    exact ⟨row, h1, by simp [h2]⟩
  constructor <;> simp [createDress, hc]

/-- Claim C6, witness: a second create with `rowA`'s code fails and the
store still holds exactly `rowA`. -/
theorem C6_witness :
    (createDress dbOne [] 5 reqDup).2.2 = .error .duplicateCode ∧
    (createDress dbOne [] 5 reqDup).1 = dbOne :=
  C6_theorem dbOne [] 5 reqDup (by decide)

/-- Claim C7, counterexample.  Updating id 1 on an empty store — an id
that is not present — leaves the store unchanged but answers
`{ success: true }`: the handler has no not-found outcome at all, so no
`NotFoundError` is ever produced. -/
theorem C7_counterexample :
    updateDress ⟨[], 1⟩ [] 1 reqEmpty = (⟨[], 1⟩, [], .ok ()) := rfl

/-- Claim C7 (amended): an update whose id matches no persisted record
updates zero rows — the store is left unchanged — and still reports
success; no `NotFoundError` is raised. -/
theorem C7_theorem (db : Db) (assets : List String) (id : ℕ) (r : CreateReq)
    (h : ∀ row ∈ db.dresses, row.id ≠ id) :
    updateDress db assets id r = (db, multerStore assets r.file, .ok ()) := by
  have hf : (db.dresses.find? fun row => decide (row.id = id)) = none := by
    rw [List.find?_eq_none]
    intro row hrow
    simp [h row hrow]
  rw [updateDress, hf]

/-- Claim C7, witness: updating the absent id 99 on the one-record store
reports success and changes nothing. -/
theorem C7_witness :
    updateDress dbOne [] 99 reqEmpty = (dbOne, [], .ok ()) :=
  C7_theorem dbOne [] 99 reqEmpty (by decide)

/-- Claim C8, counterexample.  The handler deletes the image asset first
and the record second: when the unlink of `rowA`'s image throws, the
handler aborts with a 500 and the record is still persisted — the record
removal never happened, contradicting both the claimed
record-first/asset-second order and the claim that a failed asset deletion
cannot affect the record removal. -/
theorem C8_counterexample :
    deleteDress dbOne ["/uploads/a.jpg"] (fun p => p == "/uploads/a.jpg") 1 =
      (dbOne, ["/uploads/a.jpg"], .ioError) := rfl

/-- Claim C8 (amended): deleting an absent id (in particular deleting the
same id a second time) fails with the 404 not-found response and changes
nothing; deleting a present id whose asset unlink does not throw removes
the record — a subsequent delete answers not-found and the row list no
longer carries the id — but the image asset is deleted first and the
record second, so an unlink that throws aborts the handler with a 500 and
leaves the record in place. -/
theorem C8_theorem (db : Db) (assets : List String) (ioFail : String → Bool)
    (id : ℕ) :
    ((∀ row ∈ db.dresses, row.id ≠ id) →
      deleteDress db assets ioFail id = (db, assets, .notFound)) ∧
    (∀ row, db.dresses.find? (fun r2 => decide (r2.id = id)) = some row →
      ((assets.contains row.image_url = true → ioFail row.image_url = false) →
        (deleteDress db assets ioFail id).2.2 = .ok ∧
        (deleteDress db assets ioFail id).1.dresses =
          db.dresses.filter (fun r2 => decide (r2.id ≠ id)) ∧
        (∀ r2 ∈ (deleteDress db assets ioFail id).1.dresses, r2.id ≠ id) ∧
        (deleteDress (deleteDress db assets ioFail id).1
          (deleteDress db assets ioFail id).2.1 ioFail id).2.2 = .notFound) ∧
      (assets.contains row.image_url = true → ioFail row.image_url = true →
        deleteDress db assets ioFail id = (db, assets, .ioError))) := by
  constructor
  · intro h
    have hfnone : (db.dresses.find? fun r2 => decide (r2.id = id)) = none := by
      rw [List.find?_eq_none]
      intro row hrow
      simp [h row hrow]
    rw [deleteDress, hfnone]
  · intro row hf
    have hfilter : ∀ r2 ∈ db.dresses.filter (fun r2 => decide (r2.id ≠ id)),
        r2.id ≠ id := by
      intro r2 hr2
      simpa using (List.mem_filter.mp hr2).2
    have hsecond : ∀ db' : Db,
        db'.dresses = db.dresses.filter (fun r2 => decide (r2.id ≠ id)) →
        ∀ assets' : List String,
          (deleteDress db' assets' ioFail id).2.2 = .notFound := by
      intro db' hdb' assets'
      have hn : (db'.dresses.find? fun r2 => decide (r2.id = id)) = none := by
        rw [hdb', List.find?_eq_none]
        intro r2 hr2
        simp [hfilter r2 hr2]
      rw [deleteDress, hn]
    constructor
    · intro hok
      by_cases hc : assets.contains row.image_url = true
      · have hio : ioFail row.image_url = false := hok hc
        have hres : deleteDress db assets ioFail id =
            (⟨db.dresses.filter fun r2 => decide (r2.id ≠ id), db.nextId⟩,
              assets.erase row.image_url, .ok) := by
          rw [deleteDress, hf]
          dsimp only
          rw [if_pos hc, hio]
          rfl
        exact ⟨by rw [hres], by rw [hres], by rw [hres]; exact hfilter,
          hsecond _ (by rw [hres]) _⟩
      · have hres : deleteDress db assets ioFail id =
            (⟨db.dresses.filter fun r2 => decide (r2.id ≠ id), db.nextId⟩,
              assets, .ok) := by
          rw [deleteDress, hf]
          dsimp only
          rw [if_neg hc]
        exact ⟨by rw [hres], by rw [hres], by rw [hres]; exact hfilter,
          hsecond _ (by rw [hres]) _⟩
    · intro hc hio
      rw [deleteDress, hf]
      dsimp only
      rw [if_pos hc, if_pos hio]

/-- Claim C8, witness: not-found on an absent id, and a successful delete
removing `rowA` after which a second delete answers not-found. -/
theorem C8_witness :
    deleteDress dbOne ["/uploads/a.jpg"] (fun _ => false) 99 =
      (dbOne, ["/uploads/a.jpg"], .notFound) ∧
    (deleteDress dbOne ["/uploads/a.jpg"] (fun _ => false) 1).2.2 = .ok ∧
    (∀ r2 ∈ (deleteDress dbOne ["/uploads/a.jpg"] (fun _ => false) 1).1.dresses,
      r2.id ≠ 1) ∧
    (deleteDress (deleteDress dbOne ["/uploads/a.jpg"] (fun _ => false) 1).1
      (deleteDress dbOne ["/uploads/a.jpg"] (fun _ => false) 1).2.1
      (fun _ => false) 1).2.2 = .notFound :=
  ⟨(C8_theorem dbOne ["/uploads/a.jpg"] (fun _ => false) 99).1 (by decide),
   (((C8_theorem dbOne ["/uploads/a.jpg"] (fun _ => false) 1).2 rowA rfl).1
     (fun _ => rfl)).1,
   (((C8_theorem dbOne ["/uploads/a.jpg"] (fun _ => false) 1).2 rowA rfl).1
     (fun _ => rfl)).2.2.1,
   (((C8_theorem dbOne ["/uploads/a.jpg"] (fun _ => false) 1).2 rowA rfl).1
     (fun _ => rfl)).2.2.2⟩

/-- Claim C9, counterexample.  Updating `rowA` with a new image succeeds
and points the record at the new asset, but the superseded asset
`/uploads/a.jpg` is still in the uploads directory afterwards: the handler
never deletes the previous asset. -/
theorem C9_counterexample :
    (updateDress dbOne ["/uploads/a.jpg"] 1 reqNewImg).2.2 = .ok () ∧
    "/uploads/a.jpg" ∈ (updateDress dbOne ["/uploads/a.jpg"] 1 reqNewImg).2.1 ∧
    (∃ row ∈ (updateDress dbOne ["/uploads/a.jpg"] 1 reqNewImg).1.dresses,
      row.id = 1 ∧ row.image_url = "/uploads/new.jpg") :=
  ⟨rfl, by decide, by decide⟩

/-- Claim C9 (amended): when image bytes are supplied the new asset is
stored (by the multer middleware, before any record change) and a
successful update points the record at the new asset, so the record never
references a nonexistent asset; but the previous asset is never deleted —
every asset present before the update is still present afterwards, and the
superseded file is simply orphaned. -/
theorem C9_theorem (db : Db) (assets : List String) (id : ℕ) (r : CreateReq)
    (f : String) (hf : r.file = some f) :
    (updateDress db assets id r).2.1 = assets ++ ["/uploads/" ++ f] ∧
    (∀ url ∈ assets, url ∈ (updateDress db assets id r).2.1) ∧
    (∀ row ∈ db.dresses, row.id = id →
      (db.dresses.any fun r2 => decide (r2.code = r.code ∧ r2.id ≠ id)) = false →
      ∃ row' ∈ (updateDress db assets id r).1.dresses,
        row'.id = id ∧ row'.image_url = "/uploads/" ++ f) := by
  have ha : (updateDress db assets id r).2.1 = assets ++ ["/uploads/" ++ f] := by
    rw [updateDress_assets, hf]
    rfl
  refine ⟨ha, fun url hurl => by rw [ha]; exact List.mem_append_left _ hurl,
    fun row hrow hid hany => ?_⟩
  have hsome : (db.dresses.find? fun r2 => decide (r2.id = id)).isSome := by
    rw [List.find?_isSome]
    exact ⟨row, hrow, by simp [hid]⟩
  obtain ⟨row0, hrow0⟩ := Option.isSome_iff_exists.mp hsome
  have hres : (updateDress db assets id r).1.dresses =
      db.dresses.map fun r2 =>
        if r2.id = id then
          { r2 with
            code := r.code
            name := r.name
            category := r.category
            note := r.note
            sizes := r.sizes
            image_url :=
              (match r.file with
                | some f => "/uploads/" ++ f
                | none => r2.image_url) }
        else r2 := by
    rw [updateDress, hrow0]
    simp only [hany]
    rfl
  rw [hres]
  refine ⟨_, List.mem_map_of_mem _ hrow, ?_⟩
  rw [if_pos hid, hf]
  exact ⟨hid, rfl⟩

/-- Claim C9, witness: the amended theorem at `rowA` with a fresh image. -/
theorem C9_witness :
    (updateDress dbOne ["/uploads/a.jpg"] 1 reqNewImg).2.1 =
      ["/uploads/a.jpg"] ++ ["/uploads/new.jpg"] ∧
    (∃ row' ∈ (updateDress dbOne ["/uploads/a.jpg"] 1 reqNewImg).1.dresses,
      row'.id = 1 ∧ row'.image_url = "/uploads/new.jpg") :=
  ⟨(C9_theorem dbOne ["/uploads/a.jpg"] 1 reqNewImg "new.jpg" rfl).1,
   (C9_theorem dbOne ["/uploads/a.jpg"] 1 reqNewImg "new.jpg" rfl).2.2 rowA
     (by decide) rfl (by decide)⟩

/-! ### Claim C10: the server-side search parameter -/

/-- Claim C10, counterexample.  The search text `X%Y` is contained in
`rowLike`'s `note` alone — `name`, `code` and `category` do not contain
it — yet the record *is* returned, because `%` is a SQL LIKE wildcard and
the name `XZY` matches the pattern `%X%Y%`.  The claim's universally
quantified substring reading is therefore false. -/
theorem C10_counterexample :
    containsCI "X%Y" rowLike.note ∧
    ¬ containsCI "X%Y" rowLike.name ∧
    ¬ containsCI "X%Y" rowLike.code ∧
    ¬ containsCI "X%Y" rowLike.category ∧
    rowLike ∈ getDresses dbLike none (some "X%Y") := by decide

/-- Claim C10 (amended): the server search is a SQL `LIKE '%q%'` match —
ASCII-case-insensitive, with `%` and `_` acting as wildcards — against the
`name`, `code` and `category` columns only.  For a search text free of the
wildcard characters this is substring containment: a record whose `note`
alone contains the text, while `name`, `code` and `category` do not, is
not returned. -/
theorem C10_theorem (db : Db) (q : String) (row : DressRow)
    (hw : ∀ c ∈ q.data, c ≠ '%' ∧ c ≠ '_')
    (hname : ¬ containsCI q row.name) (hcode : ¬ containsCI q row.code)
    (hcat : ¬ containsCI q row.category) (hnote : containsCI q row.note) :
    row ∉ getDresses db none (some q) := by
  intro hmem
  have hq : q ≠ "" := by
    intro h
    subst h
    exact hname List.nil_infix
  have hmem2 : row ∈ (if q = "" then db.dresses
      else db.dresses.filter (searchPred q)).insertionSort createdDesc := hmem
  rw [if_neg hq] at hmem2
  have hpred : searchPred q row = true :=
    (List.mem_filter.mp
      ((List.perm_insertionSort createdDesc _).mem_iff.mp hmem2)).2
  rw [searchPred, Bool.or_eq_true, Bool.or_eq_true] at hpred
  rcases hpred with (h | h) | h
  · exact hname (containsCI_of_likeB hw h)
  · exact hcode (containsCI_of_likeB hw h)
  · exact hcat (containsCI_of_likeB hw h)

/-- Claim C10, witness: the wildcard-free search `xy` is contained in
`rowNote`'s note alone, and the record is indeed not returned. -/
theorem C10_witness : rowNote ∉ getDresses dbNote none (some "xy") :=
  C10_theorem dbNote "xy" rowNote (by decide) (by decide) (by decide)
    (by decide) (by decide)
